import Mathlib

/-!
Verification of the PIAA `Observation` pipeline (`piaa/observation.py`).

The Python class manages a stack of camera frames, extracts per-source pixel
stamps, subtracts per-channel backgrounds and fills a pairwise variance grid.
Below, the relevant methods are shallowly embedded: pixel data becomes lists
of rationals, the persisted hdf5 `vgrid` dataset becomes a total function
`Nat → Nat → Rat`, caches and stores become finite-map-like functions, and
calls into external libraries (astropy statistics, WCS) become explicit
function parameters.  Fallible paths are modelled with `Except`.
-/

namespace PIAA

/-! ### Variance grid (`Observation.get_variance_for_target`)

The Python method, for a target index `t`:
  * loads the target stamp cube and normalizes it (`stamp0 / stamp0.sum()`),
  * for every `source_index` in `range(num_sources)`, if
    `vgrid[t, s] == 0 and vgrid[s, t] == 0`, loads and normalizes the other
    cube and stores `((stamp0 - stamp1) ** 2).sum()` at `vgrid[t, s]`,
    skipping (ValueError) shapes that do not match.
A stamp cube is modelled as the flattened list of its pixels over all frames.
-/

/-- `stamp / stamp.sum()`: flux normalization of a stamp cube. -/
def normalize_stamp (s : List ℚ) : List ℚ :=
  s.map (fun x => x / s.sum)

/-- `((a - b) ** 2).sum()`: sum of squared pixel-wise differences. -/
def sum_sq_diff (a b : List ℚ) : ℚ :=
  (List.zipWith (fun x y => (x - y) ^ 2) a b).sum

/-- The persisted `vgrid` dataset: row index, column index to stored value.
Freshly created hdf5 datasets are zero-filled, hence `zero_grid` below. -/
abbrev Grid := ℕ → ℕ → ℚ

/-- A just-created `vgrid` dataset (hdf5 zero-fills new datasets). -/
def zero_grid : Grid := fun _ _ => 0

/-- `vgrid_dset[i, j] = v`. -/
def write_cell (g : Grid) (i j : ℕ) (v : ℚ) : Grid :=
  fun a b => if a = i then if b = j then v else g a b else g a b

/-- The variance the code computes for the pair `(i, j)`:
sum of squared differences of the two normalized stamp cubes. -/
def vpair (stamps : ℕ → List ℚ) (i j : ℕ) : ℚ :=
  sum_sq_diff (normalize_stamp (stamps i)) (normalize_stamp (stamps j))

/-- One iteration of the source loop in `get_variance_for_target`:
compute the pair only when both `vgrid[t, s]` and `vgrid[s, t]` read zero;
a shape mismatch (numpy `ValueError`) leaves the grid unchanged. -/
def vstep (stamps : ℕ → List ℚ) (t : ℕ) (g : Grid) (s : ℕ) : Grid :=
  if g t s = 0 ∧ g s t = 0 then
    if (stamps t).length = (stamps s).length then
      write_cell g t s (vpair stamps t s)
    else g
  else g

/-- `Observation.get_variance_for_target(t)`: run the source loop over
`range(num_sources)` against grid state `g`. -/
def get_variance_for_target (stamps : ℕ → List ℚ) (n t : ℕ) (g : Grid) : Grid :=
  (List.range n).foldl (vstep stamps t) g

/-- A full pass: `get_variance_for_target(t)` for every target index
`t = 0, …, n-1` in order, starting from a freshly created (all-zero) grid. -/
def full_pass (stamps : ℕ → List ℚ) (n : ℕ) : Grid :=
  (List.range n).foldl (fun g t => get_variance_for_target stamps n t g) zero_grid

/-- Two concrete stamp cubes (two pixels each) used to evaluate the
variance-grid claims on explicit inputs. -/
def ex_stamps : ℕ → List ℚ :=
  fun i => if i = 0 then [1, 0] else [0, 1]

/-! #### Basic lemmas about the grid update -/

lemma write_cell_same (g : Grid) (i j : ℕ) (v : ℚ) : write_cell g i j v i j = v := by
  simp [write_cell]

lemma write_cell_other (g : Grid) (i j : ℕ) (v : ℚ) (a b : ℕ) (h : ¬(a = i ∧ b = j)) :
    write_cell g i j v a b = g a b := by
  unfold write_cell
  by_cases ha : a = i
  · have hb : ¬b = j := fun hb => h ⟨ha, hb⟩
    simp [ha, hb]
  · simp [ha]

/-- A step for target `t` and source `s` can only change the cell `(t, s)`. -/
lemma vstep_untouched (stamps : ℕ → List ℚ) (t : ℕ) (g : Grid) (s a b : ℕ)
    (h : ¬(a = t ∧ b = s)) : vstep stamps t g s a b = g a b := by
  unfold vstep
  split
  · split
    · exact write_cell_other g t s _ a b h
    · rfl
  · rfl

/-- A step never overwrites a nonzero cell: the guard demands
`vgrid[t, s] == 0` before the write at `(t, s)`. -/
lemma vstep_preserve_nonzero (stamps : ℕ → List ℚ) (t : ℕ) (g : Grid) (s a b : ℕ)
    (h : g a b ≠ 0) : vstep stamps t g s a b = g a b := by
  by_cases hab : a = t ∧ b = s
  · obtain ⟨ha, hb⟩ := hab
    subst ha; subst hb
    unfold vstep
    split
    · next hz => exact absurd hz.1 h
    · rfl
  · exact vstep_untouched stamps t g s a b hab

/-- The whole source loop never overwrites a nonzero cell. -/
lemma foldl_vstep_preserve_nonzero (stamps : ℕ → List ℚ) (t a b : ℕ) :
    ∀ (l : List ℕ) (g : Grid), g a b ≠ 0 →
      (l.foldl (vstep stamps t) g) a b = g a b := by
  intro l
  induction l with
  | nil => intro g _; rfl
  | cons s l ih =>
      intro g h
      have hstep := vstep_preserve_nonzero stamps t g s a b h
      calc ((s :: l).foldl (vstep stamps t) g) a b
          = (l.foldl (vstep stamps t) (vstep stamps t g s)) a b := rfl
        _ = vstep stamps t g s a b := ih _ (by rw [hstep]; exact h)
        _ = g a b := hstep

/-- Cells outside row `t` are untouched by the whole source loop. -/
lemma foldl_vstep_ne_row (stamps : ℕ → List ℚ) (t a b : ℕ) (ha : a ≠ t) :
    ∀ (l : List ℕ) (g : Grid), (l.foldl (vstep stamps t) g) a b = g a b := by
  intro l
  induction l with
  | nil => intro g; rfl
  | cons s l ih =>
      intro g
      calc ((s :: l).foldl (vstep stamps t) g) a b
          = (l.foldl (vstep stamps t) (vstep stamps t g s)) a b := rfl
        _ = vstep stamps t g s a b := ih _
        _ = g a b := vstep_untouched stamps t g s a b (fun hc => ha hc.1)

/-- A cell `(t, b)` is untouched by the loop over sources not containing `b`. -/
lemma foldl_vstep_not_mem (stamps : ℕ → List ℚ) (t b : ℕ) :
    ∀ (l : List ℕ) (g : Grid), b ∉ l → (l.foldl (vstep stamps t) g) t b = g t b := by
  intro l
  induction l with
  | nil => intro g _; rfl
  | cons s l ih =>
      intro g hb
      have hbs : b ≠ s := fun h => hb (h ▸ List.mem_cons_self s l)
      have hbl : b ∉ l := fun h => hb (List.mem_cons_of_mem s h)
      calc ((s :: l).foldl (vstep stamps t) g) t b
          = (l.foldl (vstep stamps t) (vstep stamps t g s)) t b := rfl
        _ = vstep stamps t g s t b := ih _ hbl
        _ = g t b := vstep_untouched stamps t g s t b (fun hc => hbs hc.2)

/-! #### Lemmas about the computed pair value -/

lemma sum_sq_diff_self (a : List ℚ) : sum_sq_diff a a = 0 := by
  unfold sum_sq_diff
  induction a with
  | nil => rfl
  | cons x xs ih =>
      simp only [List.zipWith_cons_cons, List.sum_cons] at *
      rw [ih]
      ring

lemma sum_sq_diff_comm (a b : List ℚ) : sum_sq_diff a b = sum_sq_diff b a := by
  unfold sum_sq_diff
  rw [List.zipWith_comm_of_comm]
  intro x y
  ring

/-- Comparing a normalized stamp with itself gives exactly zero. -/
lemma vpair_self (stamps : ℕ → List ℚ) (i : ℕ) : vpair stamps i i = 0 :=
  sum_sq_diff_self _

lemma vpair_comm (stamps : ℕ → List ℚ) (i j : ℕ) : vpair stamps i j = vpair stamps j i :=
  sum_sq_diff_comm _ _

/-! #### Shape of the grid built by a full pass

Processing targets `0, …, t-1` in order from a fresh grid leaves the grid in
the state `pass_formula n t`: the rows below `t` carry the pair variances on
and above the diagonal, everything else is still zero.  `mid_formula n t m`
is the intermediate state while target `t` has processed sources `0, …, m-1`.
-/

/-- Grid state after full passes for targets `0, …, t-1`. -/
def pass_formula (stamps : ℕ → List ℚ) (n t : ℕ) : Grid := fun a b =>
  if a < t ∧ a ≤ b ∧ b < n then vpair stamps a b else 0

/-- Grid state while target `t` has processed sources `0, …, m-1`. -/
def mid_formula (stamps : ℕ → List ℚ) (n t m : ℕ) : Grid := fun a b =>
  if a < t ∧ a ≤ b ∧ b < n then vpair stamps a b
  else if a = t ∧ t ≤ b ∧ b < m then vpair stamps t b
  else 0

lemma mid_formula_zero (stamps : ℕ → List ℚ) (n t : ℕ) :
    mid_formula stamps n t 0 = pass_formula stamps n t := by
  funext a b
  unfold mid_formula pass_formula
  by_cases h1 : a < t ∧ a ≤ b ∧ b < n
  · rw [if_pos h1, if_pos h1]
  · rw [if_neg h1, if_neg h1, if_neg (by omega)]

/-- Effect of one source step on the intermediate state. -/
lemma vstep_mid (stamps : ℕ → List ℚ) (n t : ℕ)
    (hl : ∀ i j, i < n → j < n → (stamps i).length = (stamps j).length)
    (ht : t < n) (m : ℕ) (hm : m < n) :
    vstep stamps t (mid_formula stamps n t m) m = mid_formula stamps n t (m + 1) := by
  have hGtm : mid_formula stamps n t m t m = 0 := by
    unfold mid_formula
    rw [if_neg (by omega), if_neg (by omega)]
  have hGmt : mid_formula stamps n t m m t = if m < t then vpair stamps m t else 0 := by
    unfold mid_formula
    by_cases hmlt : m < t
    · rw [if_pos (by omega), if_pos hmlt]
    · rw [if_neg (by omega), if_neg (by omega), if_neg hmlt]
  funext a b
  by_cases h3 : a = t ∧ b = m
  · obtain ⟨ha, hb⟩ := h3
    subst ha; subst hb
    unfold vstep
    by_cases hmlt : b < a
    · by_cases hv : vpair stamps b a = 0
      · rw [if_pos ⟨hGtm, by rw [hGmt, if_pos hmlt]; exact hv⟩,
          if_pos (hl a b ht hm), write_cell_same]
        unfold mid_formula
        rw [if_neg (by omega), if_neg (by omega)]
        rw [vpair_comm]
        exact hv
      · rw [if_neg (by rw [hGmt, if_pos hmlt]; exact fun hc => hv hc.2)]
        rw [hGtm]
        unfold mid_formula
        rw [if_neg (by omega), if_neg (by omega)]
    · rw [if_pos ⟨hGtm, by rw [hGmt, if_neg hmlt]⟩, if_pos (hl a b ht hm), write_cell_same]
      unfold mid_formula
      rw [if_neg (by omega), if_pos (by omega)]
  · rw [vstep_untouched stamps t _ m a b h3]
    unfold mid_formula
    by_cases h1 : a < t ∧ a ≤ b ∧ b < n
    · rw [if_pos h1, if_pos h1]
    · rw [if_neg h1, if_neg h1]
      by_cases h2 : a = t ∧ t ≤ b ∧ b < m
      · rw [if_pos h2, if_pos (by omega)]
      · rw [if_neg h2, if_neg (by
          intro hc
          exact h2 ⟨hc.1, hc.2.1, by omega⟩)]

/-- Running target `t` on the state left by targets `0, …, t-1` yields the
state for targets `0, …, t`. -/
lemma pass_step (stamps : ℕ → List ℚ) (n t : ℕ)
    (hl : ∀ i j, i < n → j < n → (stamps i).length = (stamps j).length)
    (ht : t < n) :
    get_variance_for_target stamps n t (pass_formula stamps n t) =
      pass_formula stamps n (t + 1) := by
  have hfold : ∀ m, m ≤ n →
      (List.range m).foldl (vstep stamps t) (pass_formula stamps n t) =
        mid_formula stamps n t m := by
    intro m
    induction m with
    | zero => intro _; rw [List.range_zero, List.foldl_nil, mid_formula_zero]
    | succ m ih =>
        intro hm
        rw [List.range_succ, List.foldl_append, ih (by omega), List.foldl_cons,
          List.foldl_nil, vstep_mid stamps n t hl ht m (by omega)]
  unfold get_variance_for_target
  rw [hfold n le_rfl]
  funext a b
  unfold mid_formula pass_formula
  by_cases h1 : a < t ∧ a ≤ b ∧ b < n
  · rw [if_pos h1, if_pos (by omega)]
  · rw [if_neg h1]
    by_cases h2 : a = t ∧ t ≤ b ∧ b < n
    · rw [if_pos h2, if_pos (by omega), h2.1]
    · rw [if_neg h2, if_neg (by
        intro hc
        rcases Nat.lt_succ_iff_lt_or_eq.mp hc.1 with h | h
        · exact h1 ⟨h, hc.2⟩
        · exact h2 ⟨h, by omega⟩)]

/-- The grid state after a full pass over all targets. -/
lemma full_pass_formula (stamps : ℕ → List ℚ) (n : ℕ)
    (hl : ∀ i j, i < n → j < n → (stamps i).length = (stamps j).length) :
    full_pass stamps n = pass_formula stamps n n := by
  unfold full_pass
  have key : ∀ k, k ≤ n →
      (List.range k).foldl (fun g t => get_variance_for_target stamps n t g) zero_grid =
        pass_formula stamps n k := by
    intro k
    induction k with
    | zero =>
        intro _
        rw [List.range_zero, List.foldl_nil]
        funext a b
        unfold zero_grid pass_formula
        rw [if_neg (by omega)]
    | succ k ih =>
        intro hk
        rw [List.range_succ, List.foldl_append, ih (by omega), List.foldl_cons,
          List.foldl_nil]
        exact pass_step stamps n k hl (by omega)
  exact key n le_rfl

/-! ### Stamp slice geometry (`Observation.get_source_slice`)

The method keeps a per-source cache `self._stamps_cache`.  With `force_new`
it first deletes the entry; on a cache miss it computes the slice geometry
(drift points, midpoint adjustment, padding, `Cutout2D`) and, when `cache` is
set, stores it.  The geometry computation reads only immutable inputs (pixel
locations, first frame), so it is modelled as a function `compute` from the
source index to the resulting record. -/

/-- The `Stamp` namedtuple: row slice, column slice, adjusted midpoint and
the cutout bounding-box metadata. -/
structure Stamp where
  row_slice : ℕ × ℕ
  col_slice : ℕ × ℕ
  mid_point : ℤ × ℤ
  cutout : (ℕ × ℕ) × (ℕ × ℕ)
deriving DecidableEq

/-- `Observation.get_source_slice`: returns the stamp together with the new
cache state. -/
def get_source_slice (compute : ℕ → Stamp) (stamps_cache : ℕ → Option Stamp)
    (source_index : ℕ) (force_new cache : Bool) : Stamp × (ℕ → Option Stamp) :=
  let cache0 : ℕ → Option Stamp :=
    if force_new then fun j => if j = source_index then none else stamps_cache j
    else stamps_cache
  match cache0 source_index with
  | some s => (s, cache0)
  | none =>
      let s := compute source_index
      (s, if cache then fun j => if j = source_index then some s else cache0 j else cache0)

/-! ### Stamp padding (`Observation._pad_super_pixel` and the cutout size)

`_pad_super_pixel(num) = int(np.ceil(np.abs(num) / 8)) * 8`, and
`get_source_slice` requests a cutout of size
`(_pad_super_pixel(height) + 8, _pad_super_pixel(width) + 4)`. -/

/-- `Observation._pad_super_pixel`. -/
def pad_super_pixel (num : ℚ) : ℤ :=
  ⌈|num| / 8⌉ * 8

/-- The cutout size requested in `get_source_slice`:
`(pad(height) + 8, pad(width) + 4)`. -/
def stamp_dims (width height : ℚ) : ℤ × ℤ :=
  (pad_super_pixel height + 8, pad_super_pixel width + 4)

end PIAA

/-- C1 counterexample: the persisted variance grid is NOT symmetric after a
full pass.  With two sources whose normalized stamps differ, the pass stores
the pair variance 2 at `vgrid[0, 1]` while `vgrid[1, 0]` stays 0 (target 1
skips the pair because `vgrid[0, 1]` is already nonzero, and nothing ever
writes the mirror cell). -/
theorem C1_counterexample :
    PIAA.full_pass PIAA.ex_stamps 2 0 1 ≠ PIAA.full_pass PIAA.ex_stamps 2 1 0 := by
  have h1 : PIAA.full_pass PIAA.ex_stamps 2 0 1 = 2 := by
    norm_num [PIAA.full_pass, PIAA.get_variance_for_target, PIAA.vstep, PIAA.write_cell,
      PIAA.vpair, PIAA.normalize_stamp, PIAA.sum_sq_diff, PIAA.zero_grid, PIAA.ex_stamps,
      show List.range 2 = [0, 1] from rfl]
  have h2 : PIAA.full_pass PIAA.ex_stamps 2 1 0 = 0 := by
    norm_num [PIAA.full_pass, PIAA.get_variance_for_target, PIAA.vstep, PIAA.write_cell,
      PIAA.vpair, PIAA.normalize_stamp, PIAA.sum_sq_diff, PIAA.zero_grid, PIAA.ex_stamps,
      show List.range 2 = [0, 1] from rfl]
  rw [h1, h2]
  norm_num

/-- C1 amended: after a full pass of `get_variance_for_target` over every
target index (in increasing order, starting from a freshly created all-zero
grid, with all stamp cubes of equal shape), the grid is upper triangular
rather than symmetric: cell `(i, j)` with `i ≤ j < n` holds the pair's sum of
squared normalized differences, and every other cell — in particular the
mirror cell `(j, i)` for `i < j` — is zero.  The two cells of a pair agree
only when the pair variance is zero. -/
theorem C1_upper_triangle (stamps : ℕ → List ℚ) (n : ℕ)
    (hl : ∀ i j, i < n → j < n → (stamps i).length = (stamps j).length) (i j : ℕ) :
    PIAA.full_pass stamps n i j =
      if i ≤ j ∧ j < n then PIAA.vpair stamps i j else 0 := by
  rw [PIAA.full_pass_formula stamps n hl]
  unfold PIAA.pass_formula
  by_cases h : i ≤ j ∧ j < n
  · rw [if_pos (by omega), if_pos h]
  · rw [if_neg (by omega), if_neg h]

/-- Witness for C1 (amended) at a concrete input: for the two example stamps
the full pass stores the pair variance at the upper cell `(0, 1)`. -/
theorem C1_upper_triangle_witness :
    PIAA.full_pass PIAA.ex_stamps 2 0 1 = PIAA.vpair PIAA.ex_stamps 0 1 := by
  have h := C1_upper_triangle PIAA.ex_stamps 2
    (by
      intro i j _ _
      have hlen : ∀ k, (PIAA.ex_stamps k).length = 2 := by
        intro k
        unfold PIAA.ex_stamps
        split <;> rfl
      rw [hlen i, hlen j]) 0 1
  rw [h, if_pos (by norm_num)]

/-- C2: `get_variance_for_target` is an idempotent resume.  For any stamp
collection, grid state and target index, every cell that is nonzero after one
run keeps exactly that value after a second run with the same inputs: a pair
is recomputed only when both the `(target, other)` cell and its symmetric
counterpart `(other, target)` are exactly zero, so a nonzero cell is never
rewritten. -/
theorem C2_idempotent_resume (stamps : ℕ → List ℚ) (n t : ℕ) (g : PIAA.Grid) (i j : ℕ)
    (h : PIAA.get_variance_for_target stamps n t g i j ≠ 0) :
    PIAA.get_variance_for_target stamps n t (PIAA.get_variance_for_target stamps n t g) i j =
      PIAA.get_variance_for_target stamps n t g i j :=
  PIAA.foldl_vstep_preserve_nonzero stamps t i j (List.range n) _ h

/-- Witness for C2 at a concrete input: with the two example stamps, one run
from the fresh grid writes `vgrid[0, 1] = 2 ≠ 0`, and a second run leaves that
cell unchanged. -/
theorem C2_idempotent_resume_witness :
    PIAA.get_variance_for_target PIAA.ex_stamps 2 0
        (PIAA.get_variance_for_target PIAA.ex_stamps 2 0 PIAA.zero_grid) 0 1 =
      PIAA.get_variance_for_target PIAA.ex_stamps 2 0 PIAA.zero_grid 0 1 :=
  C2_idempotent_resume PIAA.ex_stamps 2 0 PIAA.zero_grid 0 1 (by
    norm_num [PIAA.get_variance_for_target, PIAA.vstep, PIAA.write_cell, PIAA.vpair,
      PIAA.normalize_stamp, PIAA.sum_sq_diff, PIAA.zero_grid, PIAA.ex_stamps,
      show List.range 2 = [0, 1] from rfl])

/-- C6: after `get_variance_for_target(i)` runs on a grid whose diagonal cell
`(i, i)` is still unset (zero, as in a freshly created grid), that cell holds
exactly zero, because the target's normalized stamp cube compared with itself
gives a zero sum of squared differences. -/
theorem C6_diagonal_zero (stamps : ℕ → List ℚ) (n : ℕ) (g : PIAA.Grid) (i : ℕ)
    (hi : i < n) (h0 : g i i = 0) (_hflux : (stamps i).sum ≠ 0) :
    PIAA.get_variance_for_target stamps n i g i i = 0 := by
  unfold PIAA.get_variance_for_target
  rw [show n = (i + 1) + (n - (i + 1)) by omega, List.range_add, List.foldl_append]
  rw [PIAA.foldl_vstep_not_mem _ _ _ _ _ (by
    intro hmem
    obtain ⟨k, _, hk⟩ := List.mem_map.mp hmem
    omega)]
  rw [List.range_succ, List.foldl_append, List.foldl_cons, List.foldl_nil]
  have hG : (List.range i).foldl (PIAA.vstep stamps i) g i i = 0 := by
    rw [PIAA.foldl_vstep_not_mem _ _ _ _ _ (by simp [List.mem_range])]
    exact h0
  unfold PIAA.vstep
  rw [if_pos ⟨hG, hG⟩, if_pos rfl, PIAA.write_cell_same]
  exact PIAA.vpair_self stamps i

/-- Witness for C6 at a concrete input: running target 0 of the example
stamps (total flux 1 ≠ 0) on the fresh grid leaves `vgrid[0, 0] = 0`. -/
theorem C6_diagonal_zero_witness :
    PIAA.get_variance_for_target PIAA.ex_stamps 2 0 PIAA.zero_grid 0 0 = 0 :=
  C6_diagonal_zero PIAA.ex_stamps 2 PIAA.zero_grid 0 (by norm_num) rfl (by
    norm_num [PIAA.ex_stamps])

/-- C3: without `force_new` and with caching enabled, two successive calls to
`get_source_slice` for the same source return identical slice geometry (the
whole stamp record, hence the same row slice, column slice and adjusted
midpoint); after the first call the cache holds the returned stamp, the
second call changes nothing, and it is served from the cache without
recomputation (its result does not depend on the geometry computation at
all). -/
theorem C3_slice_idempotent (compute : ℕ → PIAA.Stamp) (c0 : ℕ → Option PIAA.Stamp)
    (i : ℕ) :
    (PIAA.get_source_slice compute
        (PIAA.get_source_slice compute c0 i false true).2 i false true).1 =
      (PIAA.get_source_slice compute c0 i false true).1 ∧
    (PIAA.get_source_slice compute
        (PIAA.get_source_slice compute c0 i false true).2 i false true).2 =
      (PIAA.get_source_slice compute c0 i false true).2 ∧
    (PIAA.get_source_slice compute c0 i false true).2 i =
      some (PIAA.get_source_slice compute c0 i false true).1 ∧
    ∀ compute2 : ℕ → PIAA.Stamp,
      (PIAA.get_source_slice compute2
          (PIAA.get_source_slice compute c0 i false true).2 i false true).1 =
        (PIAA.get_source_slice compute c0 i false true).1 := by
  cases hc : c0 i with
  | some s => simp [PIAA.get_source_slice, hc]
  | none => simp [PIAA.get_source_slice, hc]

/-- C5 counterexample: the requested cutout width is `pad(width) + 4`, which
is never a multiple of 8.  At integer input width 1 (and height 1) the
padding is 8 and the cutout size is `(16, 12)`; 12 is not a multiple of 8,
refuting the claim that the stamp dimensions derived from the padded width
and height are multiples of 8. -/
theorem C5_counterexample :
    PIAA.stamp_dims 1 1 = (16, 12) ∧ ¬ ((8 : ℤ) ∣ (PIAA.stamp_dims 1 1).2) := by
  have hceil : ⌈(|(1 : ℚ)|) / 8⌉ = 1 := by
    rw [Int.ceil_eq_iff]
    norm_num
  constructor
  · unfold PIAA.stamp_dims PIAA.pad_super_pixel
    rw [hceil]
    norm_num
  · unfold PIAA.stamp_dims PIAA.pad_super_pixel
    rw [hceil]
    norm_num

/-- C5 amended: for every integer input, `_pad_super_pixel` returns the
smallest multiple of 8 greater than or equal to the input's absolute value,
and of the two cutout dimensions derived from the padded width and height,
the height `pad(height) + 8` is a multiple of 8 while the width
`pad(width) + 4` is congruent to 4 modulo 8 (super-pixel aligned, but not a
multiple of 8). -/
theorem C5_pad_spec (num : ℤ) :
    ((8 : ℤ) ∣ PIAA.pad_super_pixel (num : ℚ) ∧
      |num| ≤ PIAA.pad_super_pixel (num : ℚ) ∧
      ∀ m : ℤ, 8 ∣ m → |num| ≤ m → PIAA.pad_super_pixel (num : ℚ) ≤ m) ∧
    ∀ w h : ℤ, (8 : ℤ) ∣ (PIAA.stamp_dims (w : ℚ) (h : ℚ)).1 ∧
      (PIAA.stamp_dims (w : ℚ) (h : ℚ)).2 % 8 = 4 := by
  have habs : ∀ z : ℤ, |((z : ℤ) : ℚ)| = ((|z| : ℤ) : ℚ) := by
    intro z
    rw [Int.cast_abs]
  have hdvd : ∀ z : ℤ, (8 : ℤ) ∣ PIAA.pad_super_pixel (z : ℚ) := by
    intro z
    exact dvd_mul_left 8 _
  have hge : ∀ z : ℤ, |z| ≤ PIAA.pad_super_pixel (z : ℚ) := by
    intro z
    unfold PIAA.pad_super_pixel
    rw [habs]
    have h1 : ((|z| : ℤ) : ℚ) / 8 ≤ (⌈((|z| : ℤ) : ℚ) / 8⌉ : ℚ) := Int.le_ceil _
    have h2 : ((|z| : ℤ) : ℚ) ≤ (⌈((|z| : ℤ) : ℚ) / 8⌉ : ℚ) * 8 := by
      rw [div_le_iff₀ (by norm_num)] at h1
      exact h1
    exact_mod_cast h2
  refine ⟨⟨hdvd num, hge num, ?_⟩, ?_⟩
  · intro m hm hnum
    obtain ⟨k, hk⟩ := hm
    unfold PIAA.pad_super_pixel
    rw [habs]
    have h0 : |num| ≤ 8 * k := by rw [← hk]; exact hnum
    have h1 : ((|num| : ℤ) : ℚ) / 8 ≤ (k : ℚ) := by
      rw [div_le_iff₀ (by norm_num)]
      calc ((|num| : ℤ) : ℚ) ≤ ((8 * k : ℤ) : ℚ) := by exact_mod_cast h0
        _ = (k : ℚ) * 8 := by push_cast; ring
    have h2 : ⌈((|num| : ℤ) : ℚ) / 8⌉ ≤ k := Int.ceil_le.mpr h1
    calc ⌈((|num| : ℤ) : ℚ) / 8⌉ * 8 ≤ k * 8 := by
          exact mul_le_mul_of_nonneg_right h2 (by norm_num)
      _ = m := by omega
  · intro w h
    constructor
    · exact dvd_add (hdvd h) ⟨1, rfl⟩
    · obtain ⟨k, hk⟩ := hdvd w
      unfold PIAA.stamp_dims
      have : PIAA.pad_super_pixel (w : ℚ) = 8 * k := hk
      rw [this]
      omega

/-- Witness for C5 (amended) at a concrete input: for input 5 the padding is
a multiple of 8, is at least `|5|`, and is at most the multiple-of-8 bound 8,
hence equals 8; the cutout width for width 5 leaves remainder 4 modulo 8. -/
theorem C5_pad_spec_witness :
    ((8 : ℤ) ∣ PIAA.pad_super_pixel ((5 : ℤ) : ℚ) ∧
      |(5 : ℤ)| ≤ PIAA.pad_super_pixel ((5 : ℤ) : ℚ) ∧
      PIAA.pad_super_pixel ((5 : ℤ) : ℚ) ≤ 8) ∧
    (PIAA.stamp_dims ((5 : ℤ) : ℚ) ((5 : ℤ) : ℚ)).2 % 8 = 4 :=
  ⟨⟨(C5_pad_spec 5).1.1, (C5_pad_spec 5).1.2.1,
      (C5_pad_spec 5).1.2.2 8 (by norm_num) (by norm_num)⟩,
    ((C5_pad_spec 5).2 5 5).2⟩

namespace PIAA

/-! ### Python call binding (`Observation.get_frame_stamp`'s fallback path)

On a cache miss (`KeyError` from the subtracted store), `get_frame_stamp`
cuts the stamp from the raw data cube and, when `subtract_background` is
requested, executes

    self.subtract_background(stamp, frame_index, mid_point=stamp_slice.mid_point)

`Observation.subtract_background` is declared `def subtract_background(self,
frames=None)`.  Python binds a call by filling the declared parameters with
the positional arguments in order and then the keyword arguments by name; a
surplus positional argument or an unknown keyword raises `TypeError` before
the body runs.  `call_binds` models that binding check. -/

/-- Parameters (after `self`) of `Observation.subtract_background`. -/
def subtract_background_params : List String := ["frames"]

/-- Parameters (after `self`) of `Observation.subtract_frame_background`. -/
def subtract_frame_background_params : List String :=
  ["stamp", "frame_index", "r_mask", "g_mask", "b_mask", "mid_point",
    "background_sub_method", "store_background"]

/-- Whether a Python call with `npos` positional arguments and the given
keyword names binds against a parameter list (no `*args`/`**kwargs`). -/
def call_binds (params : List String) (npos : ℕ) (kwargs : List String) : Bool :=
  decide (npos ≤ params.length) && kwargs.all (fun k => (params.drop npos).contains k)

/-- `Observation.get_frame_stamp`: serve the persisted subtracted stamp when
present; on a `KeyError` cache miss cut the raw stamp, then — when
`subtract_background` is requested — attempt the call
`self.subtract_background(stamp, frame_index, mid_point=...)`, whose binding
failure surfaces as a `TypeError`. -/
def get_frame_stamp (subtracted_store : ℕ → Option (List ℚ))
    (raw_stamp : ℕ → ℕ → List ℚ) (source_index frame_index : ℕ)
    (subtract_background : Bool) : Except String (List ℚ) :=
  match subtracted_store source_index with
  | some d => .ok d
  | none =>
      let stamp := raw_stamp source_index frame_index
      if subtract_background then
        if call_binds subtract_background_params 2 ["mid_point"] then
          .ok stamp
        else .error "TypeError"
      else .ok stamp

/-! ### Stamp-level background subtraction (`subtract_frame_background`)

The method's first statement computes the background grid cell from
`self._back_w` and `self._back_h`.  `Observation.__init__` never assigns
those attributes (it assigns `background_box_w` / `background_box_h`), and
nothing else does, so every call raises `AttributeError` there.  The
embedding looks the two names up in the attribute table built by `__init__`
and models the rest of the method behind that lookup: per-channel sample
lists capped at 5 sigma-clipped `(mean, median, stddev)` triples, the
subtracted value being the median over the cached samples of the selected
statistic.  The astropy statistics (`make_source_mask`,
`sigma_clipped_stats`) are external and enter as the `compute_stats`
parameter. -/

/-- A sigma-clipped `(mean, median, stddev)` triple. -/
abbrev Stats3 := ℚ × ℚ × ℚ

/-- The numeric attributes `Observation.__init__` assigns on `self`. -/
def observation_attr (name : String) : Option ℚ :=
  if name = "camera_bias" then some 1024
  else if name = "_img_h" then some 3476
  else if name = "_img_w" then some 5208
  else if name = "background_box_h" then some 316
  else if name = "background_box_w" then some 434
  else if name = "aperture_size" then some 6
  else none

/-- `sigma_clipped_stats` returns a tuple; `method_lookup` picks component 0
(`mean`) or 1 (`median`). -/
def stat_at (s : Stats3) (idx : ℕ) : ℚ :=
  if idx = 0 then s.1 else if idx = 1 then s.2.1 else s.2.2

/-- Insertion step for sorting rationals. -/
def insert_sorted (x : ℚ) : List ℚ → List ℚ
  | [] => [x]
  | y :: ys => if x ≤ y then x :: y :: ys else y :: insert_sorted x ys

/-- Sort a list of rationals ascending. -/
def sort_rat (l : List ℚ) : List ℚ := l.foldr insert_sorted []

/-- `np.median`: middle element of the sorted values, or the mean of the two
middle elements for an even count. -/
def np_median (l : List ℚ) : ℚ :=
  let s := sort_rat l
  let n := s.length
  if n = 0 then 0
  else if n % 2 = 1 then s.getD (n / 2) 0
  else (s.getD (n / 2 - 1) 0 + s.getD (n / 2) 0) / 2

/-- The cached per-frame, per-grid-cell channel sample lists
(`self.background_region[frame][region_id]['red'/'green'/'blue']`); `none`
models the channel keys being absent. -/
abbrev BGCache := ℕ → ℤ × ℤ → Option (List Stats3 × List Stats3 × List Stats3)

/-- `Observation.subtract_frame_background`.  Returns the three per-channel
subtracted background values and the new cache state, or the exception the
call raises.  The first step reads `self._back_w` / `self._back_h`; with the
attribute table of `__init__` that lookup fails, so the remainder of the
model is unreachable in the class as written. -/
def subtract_frame_background (attr : String → Option ℚ)
    (background_region : BGCache) (compute_stats : List ℚ → Stats3 × Stats3 × Stats3)
    (stamp : List ℚ) (frame_index : ℕ) (mid_point : ℚ × ℚ)
    (background_sub_method : String) (store_background : Bool) :
    Except String ((ℚ × ℚ × ℚ) × BGCache) :=
  match attr "_back_w", attr "_back_h" with
  | some back_w, some back_h =>
      let region_id : ℤ × ℤ := (⌊mid_point.2 / back_w⌋, ⌊mid_point.1 / back_h⌋)
      let cached := background_region frame_index region_id
      let chans := match cached with
        | some c => c
        | none => ([], [], [])
      let appended :=
        if chans.1.length < 5 then
          let stats := compute_stats stamp
          (chans.1 ++ [stats.1], chans.2.1 ++ [stats.2.1], chans.2.2 ++ [stats.2.2])
        else chans
      match (if background_sub_method = "mean" then some 0
             else if background_sub_method = "median" then some 1
             else none : Option ℕ) with
      | none => .error "KeyError"
      | some idx =>
          let r_background := np_median (appended.1.map (fun s => stat_at s idx))
          let g_background := np_median (appended.2.1.map (fun s => stat_at s idx))
          let b_background := np_median (appended.2.2.map (fun s => stat_at s idx))
          let keep := cached.isSome || store_background
          let region' : BGCache :=
            if keep then fun f rid =>
              if f = frame_index ∧ rid = region_id then some appended
              else background_region f rid
            else background_region
          .ok ((r_background, g_background, b_background), region')
  | _, _ => .error "AttributeError"

/-! ### Point-source catalog filtering (`Observation.lookup_point_sources`)

After reading the catalog the method drops rows the external detector
flagged (`FLAGS != 0`, when that column exists), then removes sources within
a fixed `stamp_size = 60` pixel margin of the frame edges:
`Y > 60`, `Y < 3476 - 60`, `X > 60`, `X < 5208 - 60`. -/

/-- A catalog row: pixel position and the detector's quality flag. -/
structure PointSource where
  x : ℚ
  y : ℚ
  flags : ℕ
deriving DecidableEq

/-- The edge filter `top & bottom & right & left` of `lookup_point_sources`. -/
def edge_keep (s : PointSource) : Bool :=
  decide (s.y > 60) && decide (s.y < 3476 - 60) &&
    decide (s.x > 60) && decide (s.x < 5208 - 60)

/-- `Observation.lookup_point_sources` from the catalog table on: drop
flagged rows when the `FLAGS` column is present, then apply the edge
filter. -/
def lookup_point_sources (flags_present : Bool) (catalog : List PointSource) :
    List PointSource :=
  let ps := if flags_present then catalog.filter (fun s => s.flags == 0) else catalog
  ps.filter edge_keep

/-! ### Batch stamp creation (`Observation.create_stamps`)

For each source index: skip it when `subtracted/<index>` already exists;
otherwise materialize the stamp cube (slice geometry plus a cube slice) and
store it, catching any exception, logging it and moving on to the next
source.  Materialization is modelled as a function returning `Except`. -/

/-- `Observation.create_stamps`: fold the per-source try/except over the
source list, threading the subtracted store. -/
def create_stamps (compute : ℕ → Except String (List ℚ)) (sources : List ℕ)
    (store : ℕ → Option (List ℚ)) : ℕ → Option (List ℚ) :=
  sources.foldl
    (fun st source_index =>
      match st source_index with
      | some _ => st
      | none =>
          match compute source_index with
          | .ok d => fun j => if j = source_index then some d else st j
          | .error _ => st)
    store

end PIAA

/-- C4: on a cache miss with background subtraction requested (the default),
`get_frame_stamp` does not return a stamp: the fallback's call
`self.subtract_background(stamp, frame_index, mid_point=...)` passes two
positional arguments and a `mid_point` keyword to a method declared with the
single parameter `frames`, so Python raises `TypeError` instead of the
claimed on-the-fly background-subtracted result.  The argument pattern binds
against `subtract_frame_background`'s parameters, the evident intended
callee. -/
theorem C4_cache_miss_type_error :
    PIAA.get_frame_stamp (fun _ => none) (fun _ _ => [0]) 0 0 true =
        .error "TypeError" ∧
      PIAA.call_binds PIAA.subtract_background_params 2 ["mid_point"] = false ∧
      PIAA.call_binds PIAA.subtract_frame_background_params 2 ["mid_point"] = true := by
  refine ⟨rfl, rfl, rfl⟩

/-- C7: `subtract_frame_background` never reaches its sample-list logic — its
first statement reads `self._back_w` and `self._back_h`, which `__init__`
never assigns (it assigns `background_box_w` / `background_box_h`), so every
call raises `AttributeError` before any sample is appended or any background
value subtracted. -/
theorem C7_attribute_error (background_region : PIAA.BGCache)
    (compute_stats : List ℚ → PIAA.Stats3 × PIAA.Stats3 × PIAA.Stats3)
    (stamp : List ℚ) (frame_index : ℕ) (mid_point : ℚ × ℚ)
    (background_sub_method : String) (store_background : Bool) :
    PIAA.subtract_frame_background PIAA.observation_attr background_region
        compute_stats stamp frame_index mid_point background_sub_method
        store_background =
      .error "AttributeError" := rfl

/-- C10: the claimed behaviour of a `store_background=False` call (fresh
statistics kept only in local lists, recomputed by a later call) never
happens: the concrete call below, with an empty persistent cache and
`store_background=False`, raises `AttributeError` at the `self._back_w`
lookup before touching `background_region` at all. -/
theorem C10_no_store_attribute_error :
    PIAA.subtract_frame_background PIAA.observation_attr (fun _ _ => none)
        (fun _ => ((0, 0, 0), (0, 0, 0), (0, 0, 0))) [1, 2, 3] 0 (100, 200)
        "median" false =
      .error "AttributeError" := rfl

/-- C8: `lookup_point_sources` keeps exactly the catalog rows (those passing
the detector-flag filter, when a `FLAGS` column is present) lying strictly
more than the fixed 60-pixel margin from every frame edge, and excludes every
row within the margin; on a concrete catalog of 3 unflagged sources, two of
them inside the margin, it returns exactly the 1 remaining source. -/
theorem C8_edge_filter :
    (∀ (flags_present : Bool) (catalog : List PIAA.PointSource)
        (s : PIAA.PointSource),
      s ∈ PIAA.lookup_point_sources flags_present catalog ↔
        s ∈ (if flags_present then catalog.filter (fun t => t.flags == 0)
             else catalog) ∧
          (60 < s.y ∧ s.y < 3416 ∧ 60 < s.x ∧ s.x < 5148)) ∧
    PIAA.lookup_point_sources false
        [⟨30, 1000, 0⟩, ⟨2000, 1700, 0⟩, ⟨5100, 3460, 0⟩] =
      [⟨2000, 1700, 0⟩] := by
  constructor
  · intro flags_present catalog s
    unfold PIAA.lookup_point_sources PIAA.edge_keep
    rw [List.mem_filter]
    constructor
    · rintro ⟨hmem, hkeep⟩
      simp only [Bool.and_eq_true, decide_eq_true_eq] at hkeep
      refine ⟨hmem, hkeep.1.1.1, by linarith [hkeep.1.1.2], hkeep.1.2, by
        linarith [hkeep.2]⟩
    · rintro ⟨hmem, h1, h2, h3, h4⟩
      refine ⟨hmem, ?_⟩
      simp only [Bool.and_eq_true, decide_eq_true_eq]
      exact ⟨⟨⟨h1, by linarith⟩, h3⟩, by linarith⟩
  · unfold PIAA.lookup_point_sources
    norm_num [List.filter_cons, List.filter_nil, PIAA.edge_keep]

/-- C9: per-source failure isolation in `create_stamps`.  The final store is
characterised pointwise: a source whose dataset already existed keeps it, a
processed source whose materialization succeeds gains its dataset, a
processed source whose materialization raises ends with no dataset stored
(the exception is caught and the batch continues — the outcome for every
other source is exactly as if the failing source were absent), and untouched
indices keep their prior contents. -/
theorem C9_per_source_isolation (compute : ℕ → Except String (List ℚ))
    (sources : List ℕ) (store : ℕ → Option (List ℚ)) (i : ℕ) :
    PIAA.create_stamps compute sources store i =
      match store i with
      | some d => some d
      | none => if i ∈ sources then (compute i).toOption else none := by
  induction sources generalizing store with
  | nil =>
      cases h : store i with
      | none => simp [PIAA.create_stamps, h]
      | some d => simp [PIAA.create_stamps, h]
  | cons a l ih =>
      have hfold : PIAA.create_stamps compute (a :: l) store =
          PIAA.create_stamps compute l
            (match store a with
             | some _ => store
             | none =>
                 match compute a with
                 | .ok d => fun j => if j = a then some d else store j
                 | .error _ => store) := rfl
      rw [hfold, ih]
      by_cases hia : i = a
      · subst hia
        cases hsi : store i with
        | some d => simp [hsi]
        | none =>
            cases hc : compute i with
            | ok d => simp [hsi, hc, Except.toOption]
            | error e => simp [hsi, hc, Except.toOption]
      · cases hsa : store a with
        | some d =>
            cases hsi : store i with
            | some d' => simp [hsi]
            | none =>
                by_cases hil : i ∈ l
                · simp [hsi, hil, List.mem_cons, hia]
                · simp [hsi, hil, List.mem_cons, hia]
        | none =>
            cases hca : compute a with
            | ok d =>
                cases hsi : store i with
                | some d' => simp [hca, hia, hsi]
                | none =>
                    by_cases hil : i ∈ l
                    · simp [hca, hia, hsi, hil, List.mem_cons]
                    · simp [hca, hia, hsi, hil, List.mem_cons]
            | error e =>
                cases hsi : store i with
                | some d' => simp [hca, hsi]
                | none =>
                    by_cases hil : i ∈ l
                    · simp [hca, hsi, hil, List.mem_cons, hia]
                    · simp [hca, hsi, hil, List.mem_cons, hia]
